import Mathlib

/-!
Verification of the `norm` Cypher query builder (Go) against its
specification.  The Go sources are shallowly embedded: the builder state
(`builder/query.go`) becomes an explicit record, Go strings become `String`
(reasoned about through their `List Char` data), Go maps become association
lists with overwrite-on-insert, and the `sort.Strings` call becomes an
insertion sort over byte-wise lexicographic order.  Every definition mirrors
one Go function; doc comments name the source symbol.
-/

namespace Norm

/-! ## Values

Models the Go `interface{}` values that flow through the builder: the claim
set only exercises string, int and bool properties, matching the
corresponding cases of `isZero` in `builder/entity.go`. -/

inductive Value where
  | vString (s : String)
  | vInt (n : Int)
  | vBool (b : Bool)
deriving DecidableEq, Repr

/-- Parameter table / property map: Go `map[string]interface{}` rendered as an
association list whose order is the insertion order (Go map iteration order is
arbitrary; theorems that depend on it are stated up to permutation). -/
abbrev PMap := List (String × Value)

/-- Association-list update with Go map semantics: overwrite the existing
binding for the key, else append. -/
def mapInsert {α : Type} (m : List (String × α)) (k : String) (v : α) : List (String × α) :=
  if m.any (fun p => p.1 = k) then
    m.map (fun p => if p.1 = k then (k, v) else p)
  else m ++ [(k, v)]

/-- Association-list lookup (Go `m[k]`). -/
def lookupA {α : Type} (m : List (String × α)) (k : String) : Option α :=
  match m with
  | [] => none
  | (k', v) :: rest => if k' = k then some v else lookupA rest k

/-! ## String primitives

Go's `strings` helpers, embedded on `List Char` so that every proof can
proceed by structural induction and every concrete instance by `decide`. -/

/-- Byte-wise lexicographic `≤` on strings, as used by Go's `sort.Strings`
(the queries involved are ASCII, where byte order and code-point order
coincide). -/
def leChars : List Char → List Char → Bool
  | [], _ => true
  | _ :: _, [] => false
  | a :: as, b :: bs => if a = b then leChars as bs else decide (a < b)

/-- String comparison used to sort property keys (`sort.Strings`). -/
def leStr (s t : String) : Bool := leChars s.data t.data

/-- `leStr` as a relation, for use with `List.insertionSort`. -/
def strLeRel (a b : String) : Prop := leStr a b = true

instance : DecidableRel strLeRel := fun a b => instDecidableEqBool (leStr a b) true

/-- `sort.Strings` from `buildEntityPattern` / `buildNodePatternString`:
sorts the property keys into byte-wise ascending order. -/
def sortStrings (l : List String) : List String := List.insertionSort strLeRel l

/-- `strings.Join(parts, sep)`. -/
def joinSep (sep : String) : List String → String
  | [] => ""
  | [x] => x
  | x :: y :: rest => x ++ sep ++ joinSep sep (y :: rest)

/-- `strings.ReplaceAll(s, ".", "_")` on the character data (a single-char
pattern replacement is a character map). -/
def replaceDotsData (l : List Char) : List Char :=
  l.map (fun c => if c = '.' then '_' else c)

/-- `strings.ReplaceAll(s, ".", "_")`. -/
def replaceDotsS (s : String) : String := ⟨replaceDotsData s.data⟩

/-- `strings.Split(s, ",")` on character data. -/
def splitComma : List Char → List (List Char)
  | [] => [[]]
  | c :: rest =>
    match splitComma rest with
    | [] => [[c]]
    | h :: t => if c = ',' then [] :: h :: t else (c :: h) :: t

/-- `strings.Split(s, ",")`. -/
def splitCommaS (s : String) : List String := (splitComma s.data).map (fun l => ⟨l⟩)

/-- Does `sub` occur at the head of `hay`? (helper for `strings.Contains`). -/
def hasPrefL : List Char → List Char → Bool
  | [], _ => true
  | _ :: _, [] => false
  | a :: as, b :: bs => if a = b then hasPrefL as bs else false

/-- `strings.Contains(hay, sub)` on character data. -/
def containsL : List Char → List Char → Bool
  | hay, sub =>
    if hasPrefL sub hay then true
    else
      match hay with
      | [] => false
      | _ :: t => containsL t sub

/-- `strings.HasPrefix(s, p)` (used for the `label:` tag). -/
def hasPrefS (p s : String) : Bool := hasPrefL p.data s.data

/-- `strings.Contains(s, sub)`. -/
def containsS (s sub : String) : Bool := containsL s.data sub.data

/-- `strings.ToUpper` (ASCII view, as exercised by the validator). -/
def toUpperS (s : String) : String := ⟨s.data.map Char.toUpper⟩

/-- `strings.ToLower` (ASCII view, used for defaulted property names). -/
def toLowerS (s : String) : String := ⟨s.data.map Char.toLower⟩

/-! ## Decimal rendering (`fmt.Sprintf("%d", n)`)

Fuel-based so that the definition is structurally recursive and therefore
kernel-reducible for `decide`. -/

/-- The decimal digit character for `n % 10`. -/
def natDigitChar (n : Nat) : Char :=
  match n with
  | 0 => '0' | 1 => '1' | 2 => '2' | 3 => '3' | 4 => '4'
  | 5 => '5' | 6 => '6' | 7 => '7' | 8 => '8' | _ => '9'

/-- Little-endian decimal digits of `n` (empty for `0`); `fuel ≥ n` suffices. -/
def natDigitsAux : Nat → Nat → List Char
  | 0, _ => []
  | fuel + 1, n => if n = 0 then [] else natDigitChar (n % 10) :: natDigitsAux fuel (n / 10)

/-- Character data of Go's `%d` for a natural number. -/
def natReprData (n : Nat) : List Char :=
  if n = 0 then ['0'] else (natDigitsAux n n).reverse

/-- Go's `%d` for a natural number. -/
def natRepr (n : Nat) : String := ⟨natReprData n⟩

/-- Go's `%d` for an `int` (handles the sign). -/
def intRepr (i : Int) : String :=
  if i < 0 then "-" ++ natRepr i.natAbs else natRepr i.toNat

/-- Numeric value of a digit character (inverse of `natDigitChar`). -/
def charDigitVal (c : Char) : Nat :=
  match c with
  | '0' => 0 | '1' => 1 | '2' => 2 | '3' => 3 | '4' => 4
  | '5' => 5 | '6' => 6 | '7' => 7 | '8' => 8 | '9' => 9
  | _ => 0

/-- Value of a little-endian digit list. -/
def valLE : List Char → Nat
  | [] => 0
  | c :: cs => charDigitVal c + 10 * valLE cs

/-! ## Parameter binder (`generateParameterName`, `builder/query.go:554`)

The Go method increments `q.paramCounter` and returns
`fmt.Sprintf("%s_%d", strings.ReplaceAll(base, ".", "_"), q.paramCounter)`.
Here the already-incremented counter value is passed explicitly. -/

/-- `generateParameterName`: the placeholder name produced for `base` when the
post-increment counter value is `n`. -/
def generateParameterName (base : String) (n : Nat) : String :=
  ⟨replaceDotsData base.data ++ '_' :: natReprData n⟩

/-- The run of `N` binder calls: threads the per-instance counter through the
given base names exactly as consecutive `generateParameterName` calls do,
returning the generated names and the final counter. -/
def runBinder : List String → Nat → List String × Nat
  | [], c => ([], c)
  | b :: bs, c =>
    let c1 := c + 1
    let n := generateParameterName b c1
    let (ns, c') := runBinder bs c1
    (n :: ns, c')

/-- The maximal run of non-underscore characters at the end of a name; for a
name of the form `base ++ "_" ++ digits` this recovers `digits`. -/
def tailAfterUnderscore (l : List Char) : List Char :=
  (l.reverse.takeWhile (fun c => c != '_')).reverse

/-! ## Entities (`builder/entity.go`)

A Go struct passed to `Match`/`Create`/`Merge` is embedded as its reflected
shape: the type name plus the exported fields with their `cypher` tags and
values (the unexported `CanInterface` guard is subsumed by only listing
exported fields; the `_` marker field is handled by name, as in the source).
A non-struct argument is kept abstract: `ParseEntity` rejects it. -/

structure StructField where
  name : String
  tag : String
  value : Value
deriving DecidableEq, Repr

inductive EntityVal where
  | structVal (typeName : String) (fields : List StructField)
  | nonStructVal
deriving DecidableEq, Repr

/-- `EntityInfo` from `builder/entity.go`. -/
structure EntityInfo where
  labels : List String
  properties : PMap
deriving DecidableEq, Repr

/-- `isZero` (`builder/entity.go:88`): zero-value test with the deliberate
bool exception — `false` is never considered zero. -/
def isZero : Value → Bool
  | .vInt n => n = 0
  | .vString s => s.length = 0
  | .vBool _ => false

/-- One iteration of the property loop of `ParseEntity`
(`builder/entity.go:35`): skip the `_` marker field, skip empty and `-` tags,
split the tag on commas, default an empty property name to the lower-cased
field name, honour `omitempty` against `isZero`, and store into the map. -/
def stepField (acc : PMap) (f : StructField) : PMap :=
  if f.name = "_" then acc
  else if f.tag = "" ∨ f.tag = "-" then acc
  else
    let parts := splitCommaS f.tag
    let first := parts.headD ""
    let propName := if first = "" then toLowerS f.name else first
    let omitEmpty := parts.contains "omitempty"
    if omitEmpty ∧ isZero f.value then acc
    else mapInsert acc propName f.value

/-- The property loop of `ParseEntity`, folded over the fields in order. -/
def parseProps (fields : List StructField) (acc : PMap) : PMap :=
  match fields with
  | [] => acc
  | f :: fs => parseProps fs (stepField acc f)

/-- `parseLabels` (`builder/entity.go:77`): the `label:` tag of the `_` field,
else the type name. -/
def parseLabels (typeName : String) (fields : List StructField) : List String :=
  match fields.find? (fun f => f.name = "_") with
  | some f =>
    if hasPrefS "label:" f.tag then splitCommaS ⟨f.tag.data.drop 6⟩
    else [typeName]
  | none => [typeName]

instance {e a : Type} [DecidableEq e] [DecidableEq a] : DecidableEq (Except e a) := fun x y =>
  match x, y with
  | .ok v1, .ok v2 =>
    if h : v1 = v2 then .isTrue (by rw [h]) else .isFalse (fun hc => h (Except.ok.inj hc))
  | .error e1, .error e2 =>
    if h : e1 = e2 then .isTrue (by rw [h]) else .isFalse (fun hc => h (Except.error.inj hc))
  | .ok _, .error _ => .isFalse (fun hc => Except.noConfusion hc)
  | .error _, .ok _ => .isFalse (fun hc => Except.noConfusion hc)

/-- `ParseEntity` (`builder/entity.go:17`). -/
def ParseEntity : EntityVal → Except String EntityInfo
  | .nonStructVal => .error "entity must be a struct or a pointer to a struct"
  | .structVal typeName fields =>
    .ok ⟨parseLabels typeName fields, parseProps fields []⟩

/-! ## Conditions (`types/predicate.go`, renderer `builder/query.go:506`)

`types.Condition` is a closed interface implemented by `Predicate` and
`LogicalGroup`; the child list is represented by the mutual type `CondList`
so that the renderer is structurally recursive (kernel-reducible). -/

mutual
inductive Cond where
  | pred (property : String) (operator : String) (value : Value) (negated : Bool) : Cond
  | group (operator : String) (children : CondList) : Cond
inductive CondList where
  | nil : CondList
  | cons (c : Cond) (rest : CondList) : CondList
end

/-- List view of a `CondList`. -/
def CondList.toList : CondList → List Cond
  | .nil => []
  | .cons c rest => c :: rest.toList

/-- Conversion from a Lean list (the Go variadic slice). -/
def CL : List Cond → CondList
  | [] => .nil
  | c :: rest => .cons c (CL rest)

/-- `builder.Gt` (`builder/expression.go`): `Predicate{p, ">", v}`. -/
def gtCond (property : String) (v : Value) : Cond := .pred property ">" v false

/-- `builder.Eq`: `Predicate{p, "=", v}`. -/
def eqCond (property : String) (v : Value) : Cond := .pred property "=" v false

/-- `builder.Or`: `LogicalGroup{OR, conditions}`. -/
def orCond (conditions : List Cond) : Cond := .group "OR" (CL conditions)

/-- `builder.And`: `LogicalGroup{AND, conditions}`. -/
def andCond (conditions : List Cond) : Cond := .group "AND" (CL conditions)

/-- The `NOT (...)` wrapper of predicate rendering. -/
def notWrap (negated : Bool) (s : String) : String :=
  if negated then "NOT (" ++ s ++ ")" else s

mutual
/-- `buildConditionString` (`builder/query.go:506`): renders one condition,
threading the parameter counter and table.  A predicate's property is
alias-qualified when it contains no dot and a current alias is active; `IS
NULL` / `IS NOT NULL` render without a parameter; any other operator binds
`value` under a fresh placeholder. -/
def buildCondString (al : String) (cond : Cond) (c : Nat) (ps : PMap) :
    String × Nat × PMap :=
  match cond with
  | .pred property op value negated =>
    let prop := if ¬ property.data.contains '.' ∧ al ≠ "" then al ++ "." ++ property
                else property
    if op = "IS NULL" ∨ op = "IS NOT NULL" then
      (notWrap negated (prop ++ " " ++ op), c, ps)
    else
      let c1 := c + 1
      let name := generateParameterName (replaceDotsS prop) c1
      (notWrap negated (prop ++ " " ++ op ++ " $" ++ name), c1, mapInsert ps name value)
  | .group op children =>
    let r := buildCondChildren al op children c ps
    ("(" ++ r.1 ++ ")", r.2)

/-- The child loop of `LogicalGroup` rendering: children in list order,
joined by ` <operator> `. -/
def buildCondChildren (al op : String) (children : CondList) (c : Nat) (ps : PMap) :
    String × Nat × PMap :=
  match children with
  | .nil => ("", c, ps)
  | .cons x .nil => buildCondString al x c ps
  | .cons x (.cons y rest) =>
    let r1 := buildCondString al x c ps
    let r2 := buildCondChildren al op (.cons y rest) r1.2.1 r1.2.2
    (r1.1 ++ " " ++ op ++ " " ++ r2.1, r2.2)
end

/-- The per-child rendered strings of a `LogicalGroup`, with the same state
threading as `buildCondChildren` (used to state the join property). -/
def childStrings (al : String) (children : CondList) (c : Nat) (ps : PMap) :
    List String × Nat × PMap :=
  match children with
  | .nil => ([], c, ps)
  | .cons x rest =>
    let r1 := buildCondString al x c ps
    let r2 := childStrings al rest r1.2.1 r1.2.2
    (r1.1 :: r2.1, r2.2)

/-! ## Graph patterns (`types/core.go`, renderers `builder/query.go:608`) -/

/-- `types.NodePattern`. -/
structure NodePattern where
  variable_ : String
  labels : List String
  properties : PMap
deriving DecidableEq, Repr

/-- `types.RelationshipPattern`; `direction` holds the
`RelationshipDirection` string constants `"->"`, `"<-"`, `"--"`. -/
structure RelationshipPattern where
  variable_ : String
  type_ : String
  direction : String
  minLength : Option Int
  maxLength : Option Int
  properties : PMap
deriving DecidableEq, Repr

/-- `types.Pattern`. -/
structure Pattern where
  startNode : NodePattern
  relationship : RelationshipPattern
  endNode : NodePattern
deriving DecidableEq, Repr

/-- The label segment of a node pattern: `:L1:L2...` (`builder/query.go:476`
and `:632`). -/
def labelsText (labels : List String) : String :=
  labels.foldl (fun acc l => acc ++ ":" ++ l) ""

/-- The shared property-rendering loop (`builder/query.go:493`, `:650`,
`:717`): walk the given (already sorted) keys, bind each value under a fresh
placeholder and emit `key: $placeholder`. -/
def renderPropItems (props : PMap) : List String → Nat → PMap → List String × Nat × PMap
  | [], c, ps => ([], c, ps)
  | k :: ks, c, ps =>
    let c1 := c + 1
    let name := generateParameterName k c1
    let v := (lookupA props k).getD (.vString "")
    let r := renderPropItems props ks c1 (mapInsert ps name v)
    ((k ++ ": $" ++ name) :: r.1, r.2)

/-- The sorted-key property map rendering used by all three pattern
renderers: sort the keys (`sort.Strings`), then bind and join with `, `. -/
def renderPropsSorted (props : PMap) (c : Nat) (ps : PMap) : String × Nat × PMap :=
  let keys := sortStrings (props.map Prod.fst)
  let r := renderPropItems props keys c ps
  (joinSep ", " r.1, r.2)

/-- `buildNodePatternString` (`builder/query.go:623`). -/
def buildNodePatternString (node : NodePattern) (c : Nat) (ps : PMap) :
    String × Nat × PMap :=
  let head := "(" ++ node.variable_ ++ labelsText node.labels
  if node.properties.isEmpty then (head ++ ")", c, ps)
  else
    let r := renderPropsSorted node.properties c ps
    (head ++ " \x7b" ++ r.1 ++ "\x7d" ++ ")", r.2)

/-- `buildRelationshipPatternString` (`builder/query.go:663`), embedded
verbatim — including the `"<-<"` opening for incoming relationships and the
`"..<"` range separator that the source actually writes. -/
def buildRelationshipPatternString (rel : RelationshipPattern) (c : Nat) (ps : PMap) :
    String × Nat × PMap :=
  let startDir :=
    if rel.direction = "<-" then "<-<"
    else if rel.direction = "->" then "-"
    else if rel.direction = "--" then "-"
    else "-"
  let varPart := rel.variable_
  let typePart := if rel.type_ = "" then "" else ":" ++ rel.type_
  let lenPart :=
    if rel.minLength.isSome ∨ rel.maxLength.isSome then
      "*" ++ (match rel.minLength with | some m => intRepr m | none => "") ++
      (match rel.maxLength with
       | some m => "..<" ++ intRepr m
       | none => if rel.minLength.isSome then "..<" else "")
    else ""
  let (propPart, c', ps') :=
    if rel.properties.isEmpty then ("", c, ps)
    else
      let r := renderPropsSorted rel.properties c ps
      (" \x7b" ++ r.1 ++ "\x7d", r.2)
  let endDir :=
    if rel.direction = "<-" then "-"
    else if rel.direction = "->" then "->"
    else if rel.direction = "--" then "-"
    else "->"
  (startDir ++ "[" ++ varPart ++ typePart ++ lenPart ++ propPart ++ "]" ++ endDir, c', ps')

/-- `buildPatternString` (`builder/query.go:608`): start node, relationship,
end node concatenated. -/
def buildPatternString (pat : Pattern) (c : Nat) (ps : PMap) : String × Nat × PMap :=
  let r1 := buildNodePatternString pat.startNode c ps
  let r2 := buildRelationshipPatternString pat.relationship r1.2.1 r1.2.2
  let r3 := buildNodePatternString pat.endNode r2.2.1 r2.2.2
  (r1.1 ++ r2.1 ++ r3.1, r3.2)

/-! ## Validator (`validator/query.go`) -/

/-- `types.ValidationError`. -/
structure VErr where
  type_ : String
  message : String
  position : Int
  suggestion : String
deriving DecidableEq, Repr

/-- The closing-to-opening bracket pairing of `validateBrackets`. -/
def bracketPair (c : Char) : Char :=
  if c = ')' then '(' else if c = ']' then '[' else '{'

/-- The stack loop of `validateBrackets` (`validator/query.go:61`): push on
opening brackets, match-and-pop on closing ones, succeed on empty stack. -/
def checkBrackets : List Char → List Char → Bool
  | [], stack => stack.isEmpty
  | ch :: rest, stack =>
    if ch = '(' ∨ ch = '[' ∨ ch = '{' then checkBrackets rest (ch :: stack)
    else if ch = ')' ∨ ch = ']' ∨ ch = '}' then
      match stack with
      | [] => false
      | top :: st => if top = bracketPair ch then checkBrackets rest st else false
    else checkBrackets rest stack

/-- `validateBrackets`. -/
def validateBrackets (query : String) : Bool := checkBrackets query.data []

/-- The clause keywords recognised by `validateKeywords`
(`validator/query.go:89`). -/
def validClauses : List String :=
  ["MATCH", "CREATE", "MERGE", "RETURN", "WITH", "WHERE", "UNWIND", "SET", "DELETE", "REMOVE"]

/-- `validateKeywords` (`validator/query.go:85`). -/
def validateKeywords (query : String) : List VErr :=
  let upperQuery := toUpperS query
  if validClauses.any (fun cl => containsS upperQuery cl) then []
  else [⟨"no_valid_clause", "Query must contain at least one valid Cypher clause", 0,
        "Add MATCH, CREATE, MERGE, or another valid clause"⟩]

/-- `Validate` (`validator/query.go:30`): empty-query check (early return),
bracket check, keyword check. -/
def validate (query : String) : List VErr :=
  if query = "" then
    [⟨"empty_query", "Query cannot be empty", 0, "Provide a valid Cypher query"⟩]
  else
    (if validateBrackets query then []
     else [⟨"bracket_mismatch", "Mismatched brackets", -1,
           "Check that all parentheses (), square brackets [], and curly braces \x7b\x7d are correctly paired"⟩]) ++
    validateKeywords query

/-! ## The builder (`builder/query.go`) -/

/-- `types.Clause`: a clause keyword (`ClauseType` is a string in Go) plus
rendered content. -/
structure Clause where
  type_ : String
  content : String
deriving DecidableEq, Repr

/-- The mutable state of `cypherQueryBuilder` (`builder/query.go:69`). -/
structure BState where
  clauses : List Clause
  parameters : PMap
  paramCounter : Nat
  currentAlias : String
  pendingEntity : Option EntityVal
  pendingClause : String
  entityAliases : List (String × EntityVal)
  errors : List String
deriving DecidableEq, Repr

/-- `NewQueryBuilder` (`builder/query.go:82`). -/
def initialState : BState :=
  { clauses := [], parameters := [], paramCounter := 0, currentAlias := "",
    pendingEntity := none, pendingClause := "", entityAliases := [], errors := [] }

/-- `addClause` (`builder/query.go:458`). -/
def addClause (type_ content : String) (s : BState) : BState :=
  { s with clauses := s.clauses ++ [⟨type_, content⟩] }

/-- The string-builder body of `buildEntityPattern` (`builder/query.go:471`):
variable, labels, and — only for `CREATE`/`MERGE` — the sorted,
parameterized property map. -/
def renderEntityInfo (info : EntityInfo) (variable_ clauseType : String)
    (c : Nat) (ps : PMap) : String × Nat × PMap :=
  let head := "(" ++ variable_ ++ labelsText info.labels
  if (clauseType = "CREATE" ∨ clauseType = "MERGE") ∧ ¬ info.properties.isEmpty then
    let r := renderPropsSorted info.properties c ps
    (head ++ " \x7b" ++ r.1 ++ "\x7d" ++ ")", r.2)
  else (head ++ ")", c, ps)

/-- `buildEntityPattern` (`builder/query.go:465`). -/
def buildEntityPattern (e : EntityVal) (variable_ clauseType : String)
    (c : Nat) (ps : PMap) : Except String (String × Nat × PMap) :=
  match ParseEntity e with
  | .error err => .error ("failed to parse entity: " ++ err)
  | .ok info => .ok (renderEntityInfo info variable_ clauseType c ps)

/-- `finalizePendingClause` (`builder/query.go:162`): render the held entity
with the *current alias*, append the clause (or record the error), clear the
pending slot. -/
def finalizePendingClause (s : BState) : BState :=
  match s.pendingEntity with
  | none => s
  | some e =>
    match buildEntityPattern e s.currentAlias s.pendingClause s.paramCounter s.parameters with
    | .error msg =>
      { s with errors := s.errors ++ [msg], pendingEntity := none, pendingClause := "" }
    | .ok (pattern, c', ps') =>
      { s with clauses := s.clauses ++ [⟨s.pendingClause, pattern⟩],
               paramCounter := c', parameters := ps',
               pendingEntity := none, pendingClause := "" }

/-- The `Match`/`Create`/`Merge` argument: a literal pattern string or an
entity value. -/
inductive PatternOrEntity where
  | str (pattern : String)
  | entity (e : EntityVal)
deriving DecidableEq, Repr

/-- `handleEntityClause` (`builder/query.go:94`). -/
def handleEntityClause (clauseType : String) (p : PatternOrEntity) (s : BState) : BState :=
  let s := finalizePendingClause s
  match p with
  | .str pattern => addClause clauseType pattern s
  | .entity e => { s with pendingEntity := some e, pendingClause := clauseType }

/-- `Match` (`builder/query.go:106`). -/
def matchB (p : PatternOrEntity) (s : BState) : BState := handleEntityClause "MATCH" p s

/-- `OptionalMatch` (`builder/query.go:110`). -/
def optionalMatchB (p : PatternOrEntity) (s : BState) : BState :=
  handleEntityClause "OPTIONAL MATCH" p s

/-- `Create` (`builder/query.go:114`). -/
def createB (p : PatternOrEntity) (s : BState) : BState := handleEntityClause "CREATE" p s

/-- `Merge` (`builder/query.go:118`). -/
def mergeB (p : PatternOrEntity) (s : BState) : BState := handleEntityClause "MERGE" p s

/-- `As` (`builder/query.go:123`): set the current alias; when an entity is
pending, also record the alias association and finalize. -/
def asB (alias_ : String) (s : BState) : BState :=
  match s.pendingEntity with
  | none => { s with currentAlias := alias_ }
  | some e =>
    finalizePendingClause
      { s with currentAlias := alias_, entityAliases := mapInsert s.entityAliases alias_ e }

/-- `Where` (`builder/query.go:178`): finalize, drop empty condition lists,
else render the conditions wrapped in an implicit `AND` group. -/
def whereB (conditions : List Cond) (s : BState) : BState :=
  let s := finalizePendingClause s
  match conditions with
  | [] => s
  | _ =>
    let r := buildCondString s.currentAlias (.group "AND" (CL conditions))
      s.paramCounter s.parameters
    addClause "WHERE" r.1 { s with paramCounter := r.2.1, parameters := r.2.2 }

/-- `Return` (`builder/query.go:200`) for string expressions
(`formatExpressions` joins them with `, `). -/
def returnB (expressions : List String) (s : BState) : BState :=
  addClause "RETURN" (joinSep ", " expressions) (finalizePendingClause s)

/-- `MatchPattern` (`builder/query.go:266`). -/
def matchPatternB (pat : Pattern) (s : BState) : BState :=
  let s := finalizePendingClause s
  let r := buildPatternString pat s.paramCounter s.parameters
  addClause "MATCH" r.1 { s with paramCounter := r.2.1, parameters := r.2.2 }

/-- The builder methods quantified over in the pending-entity protocol
theorems (each is a clause-producing method of `QueryBuilder`). -/
inductive BOp where
  | matchOp (p : PatternOrEntity)
  | optionalMatchOp (p : PatternOrEntity)
  | createOp (p : PatternOrEntity)
  | mergeOp (p : PatternOrEntity)
  | whereOp (conditions : List Cond)
  | returnOp (expressions : List String)
  | matchPatternOp (pat : Pattern)

/-- Dispatch of `BOp` to the corresponding builder method. -/
def applyOp : BOp → BState → BState
  | .matchOp p, s => matchB p s
  | .optionalMatchOp p, s => optionalMatchB p s
  | .createOp p, s => createB p s
  | .mergeOp p, s => mergeB p s
  | .whereOp conds, s => whereB conds s
  | .returnOp es, s => returnB es s
  | .matchPatternOp pat, s => matchPatternB pat s

/-- `types.QueryResult`. -/
structure QueryResult where
  query : String
  parameters : PMap
  valid : Bool
  errors : List VErr
deriving DecidableEq, Repr

/-- The zero `types.QueryResult{}` returned on a build error. -/
def emptyQueryResult : QueryResult := ⟨"", [], false, []⟩

/-- One line of the final query: `<CLAUSE_KEYWORD> <content>`, the space and
content omitted when the content is empty (`builder/query.go:423`). -/
def clausePart (cl : Clause) : String :=
  cl.type_ ++ (if cl.content = "" then "" else " " ++ cl.content)

/-- `Build` (`builder/query.go:410`): force finalization; on accumulated
errors return the zero result and the `; `-joined message; otherwise join the
clause lines with newlines, run the structural validator on the text (Go's
`q.Validate()` recomputes the same text) and report `Valid = (no findings)`. -/
def buildB (s : BState) : QueryResult × Option String :=
  let s := finalizePendingClause s
  if s.errors = [] then
    let query := joinSep "\n" (s.clauses.map clausePart)
    let errs := validate query
    (⟨query, s.parameters, errs.isEmpty, errs⟩, none)
  else (emptyQueryResult, some (joinSep "; " s.errors))

/-! ## Concrete fixtures used by the claims -/

/-- The literal-scenario entity: `{label: User, property username='alice'}`
(a struct with a `_` marker field tagged `label:User` and a `Username` field
tagged `username`). -/
def aliceUser : EntityVal :=
  .structVal "UserStruct"
    [⟨"_", "label:User", .vString ""⟩, ⟨"Username", "username", .vString "alice"⟩]

/-! ## Supporting lemmas -/

theorem leChars_total : ∀ a b : List Char, leChars a b = true ∨ leChars b a = true := by
  intro a
  induction a with
  | nil => intro b; left; rfl
  | cons x xs ih =>
    intro b
    cases b with
    | nil => right; rfl
    | cons y ys =>
      by_cases hxy : x = y
      · subst hxy
        simp only [leChars, if_pos rfl]
        exact ih ys
      · have hne : y ≠ x := fun h => hxy h.symm
        simp only [leChars, if_neg hxy, if_neg hne]
        rcases lt_or_gt_of_ne (show x ≠ y from hxy) with h | h
        · left; exact decide_eq_true h
        · right; exact decide_eq_true h

theorem leChars_antisymm : ∀ a b : List Char, leChars a b = true → leChars b a = true → a = b := by
  intro a
  induction a with
  | nil =>
    intro b _ hba
    cases b with
    | nil => rfl
    | cons y ys => simp [leChars] at hba
  | cons x xs ih =>
    intro b hab hba
    cases b with
    | nil => simp [leChars] at hab
    | cons y ys =>
      by_cases hxy : x = y
      · subst hxy
        simp only [leChars, if_pos rfl] at hab hba
        exact congrArg (x :: ·) (ih ys hab hba)
      · have hne : y ≠ x := fun h => hxy h.symm
        simp only [leChars, if_neg hxy, if_neg hne] at hab hba
        exact absurd (lt_trans (of_decide_eq_true hab) (of_decide_eq_true hba)) (lt_irrefl x)

theorem leChars_trans :
    ∀ a b c : List Char, leChars a b = true → leChars b c = true → leChars a c = true := by
  intro a
  induction a with
  | nil => intro b c _ _; rfl
  | cons x xs ih =>
    intro b c hab hbc
    cases b with
    | nil => simp [leChars] at hab
    | cons y ys =>
      cases c with
      | nil => simp [leChars] at hbc
      | cons z zs =>
        by_cases hxy : x = y <;> by_cases hyz : y = z
        · subst hxy; subst hyz
          simp only [leChars, if_pos rfl] at hab hbc ⊢
          exact ih ys zs hab hbc
        · subst hxy
          simp only [leChars, if_neg hyz] at hbc ⊢
          exact hbc
        · subst hyz
          simp only [leChars, if_neg hxy] at hab ⊢
          exact hab
        · have hxlty : x < y := of_decide_eq_true (by simpa [leChars, if_neg hxy] using hab)
          have hyltz : y < z := of_decide_eq_true (by simpa [leChars, if_neg hyz] using hbc)
          have hxz : x ≠ z := fun h => absurd (lt_trans hxlty (h ▸ hyltz)) (lt_irrefl x)
          simp only [leChars, if_neg hxz]
          exact decide_eq_true (lt_trans hxlty hyltz)

instance : IsTotal String strLeRel := ⟨fun a b => leChars_total a.data b.data⟩

instance : IsTrans String strLeRel := ⟨fun a b c => leChars_trans a.data b.data c.data⟩

instance : IsAntisymm String strLeRel :=
  ⟨fun a b hab hba => by
    cases a with
    | mk da =>
      cases b with
      | mk db => exact congrArg String.mk (leChars_antisymm da db hab hba)⟩

theorem charDigitVal_natDigitChar (r : Nat) (h : r < 10) :
    charDigitVal (natDigitChar r) = r := by
  interval_cases r <;> rfl

theorem natDigitChar_ne_underscore (r : Nat) : natDigitChar r ≠ '_' := by
  unfold natDigitChar
  split <;> decide

theorem valLE_natDigitsAux : ∀ fuel n, n ≤ fuel → valLE (natDigitsAux fuel n) = n := by
  intro fuel
  induction fuel with
  | zero => intro n h; interval_cases n; rfl
  | succ f ih =>
    intro n h
    by_cases hn : n = 0
    · subst hn; simp [natDigitsAux, valLE]
    · have hdiv : n / 10 ≤ f := by
        have h1 : n / 10 < n := Nat.div_lt_self (Nat.pos_of_ne_zero hn) (by omega)
        omega
      simp only [natDigitsAux, if_neg hn, valLE]
      rw [ih (n / 10) hdiv, charDigitVal_natDigitChar (n % 10) (Nat.mod_lt n (by omega))]
      omega

theorem natDigitsAux_ne_underscore :
    ∀ fuel n c, c ∈ natDigitsAux fuel n → c ≠ '_' := by
  intro fuel
  induction fuel with
  | zero => intro n c h; simp [natDigitsAux] at h
  | succ f ih =>
    intro n c h
    by_cases hn : n = 0
    · subst hn; simp [natDigitsAux] at h
    · simp only [natDigitsAux, if_neg hn, List.mem_cons] at h
      rcases h with h | h
      · subst h; exact natDigitChar_ne_underscore _
      · exact ih _ _ h

theorem natReprData_ne_underscore (n : Nat) : ∀ c ∈ natReprData n, c ≠ '_' := by
  intro c hc
  unfold natReprData at hc
  split at hc
  · simp at hc; subst hc; decide
  · exact natDigitsAux_ne_underscore n n c (List.mem_reverse.mp hc)

theorem natReprData_injective : ∀ n m : Nat, natReprData n = natReprData m → n = m := by
  have key : ∀ k : Nat, k ≠ 0 → valLE (natDigitsAux k k) = k := fun k _ =>
    valLE_natDigitsAux k k le_rfl
  intro n m h
  unfold natReprData at h
  by_cases hn : n = 0 <;> by_cases hm : m = 0
  · omega
  · rw [if_pos hn, if_neg hm] at h
    have : natDigitsAux m m = ['0'] := by
      have := congrArg List.reverse h
      simpa using this.symm
    have hval := key m hm
    rw [this] at hval
    simp [valLE, charDigitVal] at hval
    omega
  · rw [if_neg hn, if_pos hm] at h
    have : natDigitsAux n n = ['0'] := by
      have := congrArg List.reverse h
      simpa using this
    have hval := key n hn
    rw [this] at hval
    simp [valLE, charDigitVal] at hval
    omega
  · rw [if_neg hn, if_neg hm] at h
    have hd : natDigitsAux n n = natDigitsAux m m := by
      have := congrArg List.reverse h
      simpa using this
    have := key n hn
    rw [hd, key m hm] at this
    omega

theorem takeWhile_append_of_forall {p : Char → Bool} :
    ∀ (l1 : List Char) (c : Char) (l2 : List Char),
      (∀ a ∈ l1, p a = true) → p c = false →
      List.takeWhile p (l1 ++ c :: l2) = l1 := by
  intro l1
  induction l1 with
  | nil =>
    intro c l2 _ hc
    simp [List.takeWhile, hc]
  | cons x xs ih =>
    intro c l2 hall hc
    have hx : p x = true := hall x (List.mem_cons_self x xs)
    simp only [List.cons_append, List.takeWhile, hx]
    rw [show xs.append (c :: l2) = xs ++ c :: l2 from rfl]
    rw [ih c l2 (fun a ha => hall a (List.mem_cons_of_mem x ha)) hc]

theorem tailAfterUnderscore_spec (b d : List Char) (hd : ∀ c ∈ d, c ≠ '_') :
    tailAfterUnderscore (b ++ '_' :: d) = d := by
  unfold tailAfterUnderscore
  rw [List.reverse_append, List.reverse_cons]
  rw [List.append_assoc, List.singleton_append]
  rw [takeWhile_append_of_forall d.reverse '_' b.reverse
    (fun a ha => by
      have := hd a (List.mem_reverse.mp ha)
      simp [this])
    (by simp)]
  exact List.reverse_reverse d

theorem generateParameterName_counter_inj (b1 b2 : String) (i j : Nat)
    (h : generateParameterName b1 i = generateParameterName b2 j) : i = j := by
  unfold generateParameterName at h
  have hdata : replaceDotsData b1.data ++ '_' :: natReprData i =
      replaceDotsData b2.data ++ '_' :: natReprData j := congrArg String.data h
  have h1 := tailAfterUnderscore_spec (replaceDotsData b1.data) (natReprData i)
    (natReprData_ne_underscore i)
  have h2 := tailAfterUnderscore_spec (replaceDotsData b2.data) (natReprData j)
    (natReprData_ne_underscore j)
  have : natReprData i = natReprData j := by
    rw [← h1, ← h2, hdata]
  exact natReprData_injective i j this

theorem runBinder_names_counters :
    ∀ bases c n, n ∈ (runBinder bases c).1 → ∃ b i, c < i ∧ n = generateParameterName b i := by
  intro bases
  induction bases with
  | nil => intro c n h; simp [runBinder] at h
  | cons b bs ih =>
    intro c n h
    simp only [runBinder, List.mem_cons] at h
    rcases h with h | h
    · exact ⟨b, c + 1, Nat.lt_succ_self c, h⟩
    · obtain ⟨b', i, hi, hn⟩ := ih (c + 1) n h
      exact ⟨b', i, Nat.lt_of_succ_lt hi, hn⟩

instance : IsTotal String strLeRel := ⟨fun a b => leChars_total a.data b.data⟩

instance : IsTrans String strLeRel := ⟨fun a b c => leChars_trans a.data b.data c.data⟩

instance : IsAntisymm String strLeRel :=
  ⟨fun a b hab hba => by
    cases a with
    | mk da =>
      cases b with
      | mk db => exact congrArg String.mk (leChars_antisymm da db hab hba)⟩

theorem sortStrings_perm_eq {l1 l2 : List String} (h : l1.Perm l2) :
    sortStrings l1 = sortStrings l2 := by
  unfold sortStrings
  exact List.eq_of_perm_of_sorted
    (((List.perm_insertionSort _ l1).trans h).trans (List.perm_insertionSort _ l2).symm)
    (List.sorted_insertionSort _ l1)
    (List.sorted_insertionSort _ l2)

theorem lookupA_eq_some_iff {α : Type} :
    ∀ (l : List (String × α)), (l.map Prod.fst).Nodup →
      ∀ (k : String) (v : α), lookupA l k = some v ↔ (k, v) ∈ l := by
  intro l
  induction l with
  | nil => intro _ k v; simp [lookupA]
  | cons p rest ih =>
    intro hnd k v
    obtain ⟨k', v'⟩ := p
    have hnd' : (rest.map Prod.fst).Nodup := (List.nodup_cons.mp hnd).2
    have hknotin : k' ∉ rest.map Prod.fst := (List.nodup_cons.mp hnd).1
    by_cases hk : k' = k
    · subst hk
      rw [show lookupA ((k', v') :: rest) k' = some v' from by simp [lookupA]]
      constructor
      · intro h
        rw [Option.some_inj.mp h]
        exact List.mem_cons_self _ _
      · intro h
        rcases List.mem_cons.mp h with heq | hmem
        · have hv : v = v' := congrArg Prod.snd heq
          rw [hv]
        · exact absurd (List.mem_map.mpr ⟨(k', v), hmem, rfl⟩) hknotin
    · rw [show lookupA ((k', v') :: rest) k = lookupA rest k from by simp [lookupA, hk]]
      rw [ih hnd' k v, List.mem_cons]
      constructor
      · exact Or.inr
      · intro h
        rcases h with heq | h
        · exact absurd (congrArg Prod.fst heq).symm hk
        · exact h

theorem lookupA_eq_none_iff {α : Type} :
    ∀ (l : List (String × α)) (k : String),
      lookupA l k = none ↔ k ∉ l.map Prod.fst := by
  intro l
  induction l with
  | nil => intro k; simp [lookupA]
  | cons p rest ih =>
    intro k
    obtain ⟨k', v'⟩ := p
    by_cases hk : k' = k
    · subst hk
      simp [lookupA]
    · simp only [lookupA, if_neg hk, List.map_cons, List.mem_cons]
      rw [ih k]
      constructor
      · intro h hmem
        rcases hmem with h' | h'
        · exact hk h'.symm
        · exact h h'
      · intro h hmem
        exact h (Or.inr hmem)

theorem lookupA_eq_of_perm {α : Type} (l1 l2 : List (String × α))
    (hperm : l1.Perm l2) (hnd : (l1.map Prod.fst).Nodup) (k : String) :
    lookupA l1 k = lookupA l2 k := by
  have hnd2 : (l2.map Prod.fst).Nodup := ((hperm.map Prod.fst).nodup_iff).mp hnd
  cases h : lookupA l1 k with
  | some v =>
    have hmem : (k, v) ∈ l1 := (lookupA_eq_some_iff l1 hnd k v).mp h
    exact ((lookupA_eq_some_iff l2 hnd2 k v).mpr (hperm.mem_iff.mp hmem)).symm
  | none =>
    have hnotin : k ∉ l1.map Prod.fst := (lookupA_eq_none_iff l1 k).mp h
    have : k ∉ l2.map Prod.fst := fun hmem =>
      hnotin ((hperm.map Prod.fst).mem_iff.mpr hmem)
    exact ((lookupA_eq_none_iff l2 k).mpr this).symm

theorem renderPropItems_congr (props1 props2 : PMap)
    (hlook : ∀ k, lookupA props1 k = lookupA props2 k) :
    ∀ (keys : List String) (c : Nat) (ps : PMap),
      renderPropItems props1 keys c ps = renderPropItems props2 keys c ps := by
  intro keys
  induction keys with
  | nil => intro c ps; rfl
  | cons k ks ih =>
    intro c ps
    simp only [renderPropItems, hlook k, ih]

theorem finalizePendingClause_pending_none (s : BState) :
    (finalizePendingClause s).pendingEntity = none := by
  cases h : s.pendingEntity with
  | none => simp [finalizePendingClause, h]
  | some e =>
    cases hb : buildEntityPattern e s.currentAlias s.pendingClause s.paramCounter s.parameters with
    | error msg => simp [finalizePendingClause, h, hb]
    | ok r => simp [finalizePendingClause, h, hb]

theorem finalizePendingClause_of_none (t : BState) (h : t.pendingEntity = none) :
    finalizePendingClause t = t := by
  simp [finalizePendingClause, h]

theorem finalizePendingClause_idem (s : BState) :
    finalizePendingClause (finalizePendingClause s) = finalizePendingClause s :=
  finalizePendingClause_of_none _ (finalizePendingClause_pending_none s)

theorem handleEntityClause_finalize (ct : String) (p : PatternOrEntity) (s : BState) :
    handleEntityClause ct p (finalizePendingClause s) = handleEntityClause ct p s := by
  unfold handleEntityClause
  rw [finalizePendingClause_idem]

theorem buildCondChildren_join (al op : String) :
    ∀ (children : CondList) (c : Nat) (ps : PMap),
      buildCondChildren al op children c ps =
        (joinSep (" " ++ op ++ " ") (childStrings al children c ps).1,
         (childStrings al children c ps).2)
  | .nil, c, ps => by simp [buildCondChildren, childStrings, joinSep]
  | .cons x .nil, c, ps => by
    simp [buildCondChildren, childStrings, joinSep]
  | .cons x (.cons y rest), c, ps => by
    have ih := buildCondChildren_join al op (.cons y rest)
    simp only [buildCondChildren, childStrings, ih, joinSep, String.append_assoc]

/-! ## Claim theorems -/

/-- C1, counterexample: the spec's literal scenario — `Match` on the entity
`{label: User, username='alice'}`, `As("u")`, `Where(Gt("age",25))`,
`Return("u.username")`, `Build()` — does *not* produce the claimed text
`MATCH (u:User {username: $username_1}) / WHERE (u.age > $u_age_2) / RETURN
u.username`, nor the claimed parameter table: the code renders no property
map under `MATCH`, so the entity's `username` property is never bound. -/
theorem C1_counterexample :
    ¬ ((buildB (returnB ["u.username"] (whereB [gtCond "age" (.vInt 25)]
          (asB "u" (matchB (.entity aliceUser) initialState))))).1.query =
        "MATCH (u:User \x7busername: $username_1\x7d)\nWHERE (u.age > $u_age_2)\nRETURN u.username" ∧
       (buildB (returnB ["u.username"] (whereB [gtCond "age" (.vInt 25)]
          (asB "u" (matchB (.entity aliceUser) initialState))))).1.parameters =
        [("username_1", .vString "alice"), ("u_age_2", .vInt 25)]) := by
  decide

/-- C1, amended: the literal scenario builds exactly
`MATCH (u:User)\nWHERE (u.age > $u_age_1)\nRETURN u.username` with the single
parameter `u_age_1 = 25`, because an entity finalized under any clause other
than `CREATE`/`MERGE` renders its labels only — the general fact is stated
for `renderEntityInfo`, the rendering body of `buildEntityPattern`. -/
theorem C1_match_renders_labels_only :
    ((buildB (returnB ["u.username"] (whereB [gtCond "age" (.vInt 25)]
        (asB "u" (matchB (.entity aliceUser) initialState))))) =
      (⟨"MATCH (u:User)\nWHERE (u.age > $u_age_1)\nRETURN u.username",
        [("u_age_1", .vInt 25)], true, []⟩, none)) ∧
    (∀ (info : EntityInfo) (v ct : String) (c : Nat) (ps : PMap),
      ct ≠ "CREATE" → ct ≠ "MERGE" →
      renderEntityInfo info v ct c ps = ("(" ++ v ++ labelsText info.labels ++ ")", c, ps)) := by
  constructor
  · decide
  · intro info v ct c ps h1 h2
    unfold renderEntityInfo
    rw [if_neg]
    intro hcontra
    rcases hcontra.1 with h | h
    · exact h1 h
    · exact h2 h

/-- C1 witness: the general labels-only fact of the amended claim applied at
the scenario's entity descriptor under `MATCH`. -/
theorem C1_witness :
    renderEntityInfo ⟨["User"], [("username", .vString "alice")]⟩ "u" "MATCH" 0 [] =
      ("(" ++ "u" ++ labelsText ["User"] ++ ")", 0, []) :=
  C1_match_renders_labels_only.2 ⟨["User"], [("username", .vString "alice")]⟩ "u" "MATCH" 0 []
    (by decide) (by decide)

/-- C2, counterexample: `Where(Or(Gt("age",25), Eq("active",true)))` under
current alias `u` does *not* render the claimed single-parenthesis line
`WHERE (u.age > $u_age_1 OR u.active = $u_active_2)` — the implicit `AND`
group that `Where` always builds contributes its own parenthesis pair. -/
theorem C2_counterexample :
    (whereB [orCond [gtCond "age" (.vInt 25), eqCond "active" (.vBool true)]]
        (asB "u" initialState)).clauses.map clausePart ≠
      ["WHERE (u.age > $u_age_1 OR u.active = $u_active_2)"] := by
  decide

/-- C2, amended: the call renders the doubly parenthesised line
`WHERE ((u.age > $u_age_1 OR u_active ...))`: the outer pair comes from the
implicit single-child `AND` group, the inner pair from the `OR` group; the
alias prefixing and the parameter names/values are exactly as claimed. -/
theorem C2_where_or_rendering :
    (whereB [orCond [gtCond "age" (.vInt 25), eqCond "active" (.vBool true)]]
        (asB "u" initialState)).clauses.map clausePart =
      ["WHERE ((u.age > $u_age_1 OR u.active = $u_active_2))"] ∧
    (whereB [orCond [gtCond "age" (.vInt 25), eqCond "active" (.vBool true)]]
        (asB "u" initialState)).parameters =
      [("u_age_1", .vInt 25), ("u_active_2", .vBool true)] := by
  decide

/-- C3: the relationship renderer `buildRelationshipPatternString` does not
produce the claimed output shapes.  Incoming relationships open with `<-<`
(not `<-`), and every variable-length suffix uses the separator `..<` (not
`..`): `MinLength=2` gives `*2..<`, `MaxLength=4` gives `*..<4`, both give
`*2..<4`.  Only the outgoing/undirected bracketing and the absence of a `*`
segment without bounds behave as claimed.  The repository's own
`RelationshipBuilder.String` and its tests (`tests/relationship_test.go`)
expect `<-[r:CREATED]-` and `-[:CONNECTED*2..]->` for the same patterns, so
this is a defect of `buildRelationshipPatternString` itself. -/
theorem C3_relationship_renderer_bug :
    (buildRelationshipPatternString ⟨"r", "CREATED", "<-", none, none, []⟩ 0 []).1 =
      "<-<[r:CREATED]-" ∧
    (buildRelationshipPatternString ⟨"", "CONNECTED", "->", some 2, none, []⟩ 0 []).1 =
      "-[:CONNECTED*2..<]->" ∧
    (buildRelationshipPatternString ⟨"", "CONNECTED", "->", none, some 4, []⟩ 0 []).1 =
      "-[:CONNECTED*..<4]->" ∧
    (buildRelationshipPatternString ⟨"", "KNOWS", "->", some 2, some 4, []⟩ 0 []).1 =
      "-[:KNOWS*2..<4]->" ∧
    (buildRelationshipPatternString ⟨"", "KNOWS", "->", none, none, []⟩ 0 []).1 =
      "-[:KNOWS]->" ∧
    "<-<[r:CREATED]-" ≠ "<-[r:CREATED]-" ∧
    "-[:CONNECTED*2..<]->" ≠ "-[:CONNECTED*2..]->" := by
  decide

/-- C4, counterexample: forced finalization does not use an empty alias.  It
reuses the builder's current alias: after `Match(e1).As("a")`, a second
`Match(e2)` finalized by `Return` renders `(a:User)` — with the stale
variable name `a` — not the anonymous `(:User)` the claim requires. -/
theorem C4_counterexample :
    (returnB ["x"] (matchB (.entity aliceUser)
        (asB "a" (matchB (.entity aliceUser) initialState)))).clauses =
      [⟨"MATCH", "(a:User)"⟩, ⟨"MATCH", "(a:User)"⟩, ⟨"RETURN", "x"⟩] ∧
    ("(a:User)" : String) ≠ "(:User)" := by
  decide

/-- C4, amended: every clause-producing builder method, and `Build`, first
finalizes any pending entity — rendering it with the builder's *current
alias*, which is empty only when no `As` has ever been called — and
finalization always clears the pending slot; on a fresh builder
`Match(user).Return("u")` therefore emits the anonymous clause
`MATCH (:User)` before `RETURN u`. -/
theorem C4_finalize_before_ops :
    (∀ (op : BOp) (s : BState), applyOp op s = applyOp op (finalizePendingClause s)) ∧
    (∀ s : BState, buildB s = buildB (finalizePendingClause s)) ∧
    (∀ s : BState, (finalizePendingClause s).pendingEntity = none) ∧
    ((returnB ["u"] (matchB (.entity aliceUser) initialState)).clauses =
      [⟨"MATCH", "(:User)"⟩, ⟨"RETURN", "u"⟩]) := by
  refine ⟨?_, ?_, finalizePendingClause_pending_none, by decide⟩
  · intro op s
    cases op with
    | matchOp p => exact (handleEntityClause_finalize "MATCH" p s).symm
    | optionalMatchOp p => exact (handleEntityClause_finalize "OPTIONAL MATCH" p s).symm
    | createOp p => exact (handleEntityClause_finalize "CREATE" p s).symm
    | mergeOp p => exact (handleEntityClause_finalize "MERGE" p s).symm
    | whereOp conds =>
      show whereB conds s = whereB conds (finalizePendingClause s)
      unfold whereB
      rw [finalizePendingClause_idem]
    | returnOp es =>
      show returnB es s = returnB es (finalizePendingClause s)
      unfold returnB
      rw [finalizePendingClause_idem]
    | matchPatternOp pat =>
      show matchPatternB pat s = matchPatternB pat (finalizePendingClause s)
      unfold matchPatternB
      rw [finalizePendingClause_idem]
  · intro s
    unfold buildB
    rw [finalizePendingClause_idem]

/-- C5: within one builder instance, `N` parameter-binder calls with
arbitrary (possibly repeated) base names produce pairwise distinct
placeholder names: each name carries the strictly increasing post-increment
counter as its decimal suffix, and distinct counters force distinct names. -/
theorem C5_placeholder_names_distinct :
    ∀ (bases : List String) (c : Nat),
      List.Pairwise (fun a b => a ≠ b) (runBinder bases c).1 := by
  intro bases
  induction bases with
  | nil => intro c; exact List.Pairwise.nil
  | cons b bs ih =>
    intro c
    simp only [runBinder]
    constructor
    · intro n hn heq
      obtain ⟨b', i, hi, hn'⟩ := runBinder_names_counters bs (c + 1) n hn
      rw [hn'] at heq
      have := generateParameterName_counter_inj b b' (c + 1) i heq
      omega
    · exact ih (c + 1)

/-- C6: with an `omitempty` tag, the resolved property map excludes a field
exactly when its value is the zero value of its type — except booleans,
which `isZero` never classifies as zero, so a `false` boolean is always
included while a zero integer is excluded. -/
theorem C6_omitempty_policy :
    ParseEntity (.structVal "T" [⟨"Flag", "flag,omitempty", .vBool false⟩]) =
      .ok ⟨["T"], [("flag", .vBool false)]⟩ ∧
    ParseEntity (.structVal "T" [⟨"Count", "count,omitempty", .vInt 0⟩]) =
      .ok ⟨["T"], []⟩ ∧
    (∀ b : Bool, isZero (.vBool b) = false) ∧
    (∀ n : Int, isZero (.vInt n) = true ↔ n = 0) ∧
    (∀ (nm tag : String) (v : Value),
      nm ≠ "_" → tag ≠ "" → tag ≠ "-" →
      (splitCommaS tag).contains "omitempty" = true →
      (stepField [] ⟨nm, tag, v⟩ = [] ↔ isZero v = true)) := by
  refine ⟨by decide, by decide, fun b => rfl, fun n => by simp [isZero], ?_⟩
  intro nm tag v h1 h2 h3 h4
  unfold stepField
  rw [if_neg h1, if_neg (fun h => h.elim h2 h3)]
  by_cases hz : isZero v = true
  · rw [if_pos ⟨h4, hz⟩]
    exact ⟨fun _ => hz, fun _ => rfl⟩
  · rw [if_neg (fun hc => hz hc.2)]
    constructor
    · intro hcontra
      have hins : mapInsert ([] : PMap)
          (if (splitCommaS tag).headD "" = "" then toLowerS nm else (splitCommaS tag).headD "") v =
          [((if (splitCommaS tag).headD "" = "" then toLowerS nm else (splitCommaS tag).headD ""), v)] := by
        simp [mapInsert]
      rw [hins] at hcontra
      exact absurd hcontra (List.cons_ne_nil _ _)
    · intro hcontra
      exact absurd hcontra hz

/-- C6 witness: the omission criterion applied at a non-zero integer field —
the field survives into the property map. -/
theorem C6_witness :
    stepField [] ⟨"Age", "age,omitempty", .vInt 5⟩ ≠ [] := by
  intro h
  have := (C6_omitempty_policy.2.2.2.2 "Age" "age,omitempty" (.vInt 5)
    (by decide) (by decide) (by decide) (by decide)).mp h
  simp [isZero] at this

/-- C7: `Build` returns an error exactly when resolution/reference errors were
accumulated (including by the final forced finalization); the error joins all
accumulated messages with `; ` and comes with the zero `QueryResult`; without
accumulated errors `Build` always returns the query text and parameter table,
with structural-validation findings only populating `errors` and switching
`valid` — never causing an error return. -/
theorem C7_build_error_contract (s : BState) :
    ((buildB s).2 ≠ none ↔ (finalizePendingClause s).errors ≠ []) ∧
    ((finalizePendingClause s).errors ≠ [] →
      buildB s = (emptyQueryResult, some (joinSep "; " (finalizePendingClause s).errors))) ∧
    ((finalizePendingClause s).errors = [] →
      (buildB s).2 = none ∧
      (buildB s).1.query = joinSep "\n" ((finalizePendingClause s).clauses.map clausePart) ∧
      (buildB s).1.parameters = (finalizePendingClause s).parameters ∧
      (buildB s).1.errors = validate ((buildB s).1.query) ∧
      ((buildB s).1.valid = true ↔ validate ((buildB s).1.query) = [])) := by
  by_cases h : (finalizePendingClause s).errors = []
  · unfold buildB
    rw [if_pos h]
    simp [h, List.isEmpty_iff]
  · unfold buildB
    rw [if_neg h]
    simp [h]

/-- C7 witness: a resolution error (non-struct entity) aborts `Build` with the
joined message and the zero result, while a mere structural finding (bracket
mismatch from a literal pattern) still returns text with `valid = false`. -/
theorem C7_witness :
    buildB (matchB (.entity .nonStructVal) initialState) =
      (emptyQueryResult,
       some "failed to parse entity: entity must be a struct or a pointer to a struct") ∧
    (buildB (matchB (.str "(n:Person") initialState)).2 = none ∧
    (buildB (matchB (.str "(n:Person") initialState)).1.valid = false := by
  refine ⟨?_, ?_, ?_⟩
  · have h := (C7_build_error_contract (matchB (.entity .nonStructVal) initialState)).2.1
      (by decide)
    rw [h]
    decide
  · exact ((C7_build_error_contract (matchB (.str "(n:Person") initialState)).2.2 (by decide)).1
  · have h := ((C7_build_error_contract (matchB (.str "(n:Person") initialState)).2.2
      (by decide)).2.2.2.2
    cases hvb : (buildB (matchB (.str "(n:Person") initialState)).1.valid with
    | false => rfl
    | true =>
      have hv := h.mp hvb
      have hne : validate ((buildB (matchB (.str "(n:Person") initialState)).1.query) ≠ [] := by
        decide
      exact absurd hv hne

/-- C8: the structural validator reports `bracket_mismatch` for
`MATCH (n:Person RETURN n` (and the corresponding build is marked invalid),
`empty_query` for the empty string, and `no_valid_clause` for `(n:Person)`;
its bracket check pairs `()`, `[]` and braces. -/
theorem C8_validator_findings :
    (validate "MATCH (n:Person RETURN n").map VErr.type_ = ["bracket_mismatch"] ∧
    (validate "").map VErr.type_ = ["empty_query"] ∧
    (validate "(n:Person)").map VErr.type_ = ["no_valid_clause"] ∧
    validateBrackets "()" = true ∧
    validateBrackets "[]" = true ∧
    validateBrackets "\x7b\x7d" = true ∧
    validateBrackets "([\x7b\x7d])" = true ∧
    validateBrackets "(" = false ∧
    validateBrackets "[" = false ∧
    validateBrackets "\x7b" = false ∧
    validateBrackets "(]" = false ∧
    (buildB (matchB (.str "(n:Person RETURN n") initialState)).1.valid = false := by
  decide

/-- C9: pattern rendering is deterministic in the property *map*, not its
encounter order: permuting the (duplicate-free) property list leaves the
rendered text, the bound parameters and the final counter byte-identical,
because the renderers emit keys in sorted order — stated for the shared
`renderPropsSorted`, for `buildNodePatternString` and for the entity
renderer `renderEntityInfo`. -/
theorem C9_render_deterministic (props1 props2 : PMap) (c : Nat) (pm : PMap)
    (hperm : props1.Perm props2) (hnd : (props1.map Prod.fst).Nodup) :
    renderPropsSorted props1 c pm = renderPropsSorted props2 c pm ∧
    (∀ (v : String) (ls : List String),
      buildNodePatternString ⟨v, ls, props1⟩ c pm = buildNodePatternString ⟨v, ls, props2⟩ c pm) ∧
    (∀ (v ct : String) (ls : List String),
      renderEntityInfo ⟨ls, props1⟩ v ct c pm = renderEntityInfo ⟨ls, props2⟩ v ct c pm) := by
  have hkeys : sortStrings (props1.map Prod.fst) = sortStrings (props2.map Prod.fst) :=
    sortStrings_perm_eq (hperm.map Prod.fst)
  have hlook : ∀ k, lookupA props1 k = lookupA props2 k :=
    lookupA_eq_of_perm props1 props2 hperm hnd
  have hmain : renderPropsSorted props1 c pm = renderPropsSorted props2 c pm := by
    unfold renderPropsSorted
    simp only [hkeys, renderPropItems_congr props1 props2 hlook]
  have hempty : props1.isEmpty = props2.isEmpty := by
    have hl := hperm.length_eq
    cases props1 <;> cases props2 <;> simp_all
  refine ⟨hmain, ?_, ?_⟩
  · intro v ls
    unfold buildNodePatternString
    by_cases hp : props1.isEmpty = true
    · rw [if_pos hp, if_pos (hempty ▸ hp)]
    · rw [if_neg hp, if_neg (fun hc => hp (hempty.symm ▸ hc)), hmain]
  · intro v ct ls
    unfold renderEntityInfo
    by_cases hct : ct = "CREATE" ∨ ct = "MERGE"
    · by_cases hp : props1.isEmpty = true
      · rw [if_neg (fun hc => hc.2 hp), if_neg (fun hc => hc.2 (hempty ▸ hp))]
      · rw [if_pos ⟨hct, hp⟩, if_pos ⟨hct, fun hc => hp (hempty.symm ▸ hc)⟩, hmain]
    · rw [if_neg (fun hc => hct hc.1), if_neg (fun hc => hct hc.1)]

/-- C9 witness: the two encounter orders of the property map `{a:1, b:2}`
render the same node pattern text with the same parameter bindings. -/
theorem C9_witness :
    buildNodePatternString ⟨"n", ["N"], [("b", .vInt 2), ("a", .vInt 1)]⟩ 0 [] =
      buildNodePatternString ⟨"n", ["N"], [("a", .vInt 1), ("b", .vInt 2)]⟩ 0 [] :=
  (C9_render_deterministic [("b", .vInt 2), ("a", .vInt 1)] [("a", .vInt 1), ("b", .vInt 2)]
    0 [] (by decide) (by decide)).2.1 "n" ["N"]

/-- C10: `Where` with an empty condition list only performs the forced
finalization — it appends no `WHERE` clause (so no `WHERE ()` line can ever
appear) — while `Where` with two or more conditions appends exactly one
`WHERE` clause whose content joins the children's renderings with ` AND `
inside a single outer parenthesis pair. -/
theorem C10_where_empty_and_join :
    (∀ s : BState, whereB [] s = finalizePendingClause s) ∧
    (∀ (s : BState) (conds : List Cond), 2 ≤ conds.length →
      whereB conds s =
        addClause "WHERE"
          ("(" ++ joinSep " AND "
            (childStrings (finalizePendingClause s).currentAlias (CL conds)
              (finalizePendingClause s).paramCounter (finalizePendingClause s).parameters).1 ++ ")")
          { finalizePendingClause s with
            paramCounter :=
              (childStrings (finalizePendingClause s).currentAlias (CL conds)
                (finalizePendingClause s).paramCounter (finalizePendingClause s).parameters).2.1,
            parameters :=
              (childStrings (finalizePendingClause s).currentAlias (CL conds)
                (finalizePendingClause s).paramCounter (finalizePendingClause s).parameters).2.2 }) := by
  constructor
  · intro s; rfl
  · intro s conds hlen
    cases conds with
    | nil => simp at hlen
    | cons a rest =>
      show addClause "WHERE"
          ("(" ++ (buildCondChildren (finalizePendingClause s).currentAlias "AND"
            (CL (a :: rest)) (finalizePendingClause s).paramCounter
            (finalizePendingClause s).parameters).1 ++ ")")
          { finalizePendingClause s with
            paramCounter :=
              (buildCondChildren (finalizePendingClause s).currentAlias "AND"
                (CL (a :: rest)) (finalizePendingClause s).paramCounter
                (finalizePendingClause s).parameters).2.1,
            parameters :=
              (buildCondChildren (finalizePendingClause s).currentAlias "AND"
                (CL (a :: rest)) (finalizePendingClause s).paramCounter
                (finalizePendingClause s).parameters).2.2 } = _
      rw [buildCondChildren_join]
      rfl

/-- C10 witness: the join shape applied to the concrete two-condition call
`Where(Gt("age",25), Eq("active",true))` under alias `u`. -/
theorem C10_witness :
    whereB [gtCond "age" (.vInt 25), eqCond "active" (.vBool true)] (asB "u" initialState) =
      addClause "WHERE"
        ("(" ++ joinSep " AND "
          (childStrings (finalizePendingClause (asB "u" initialState)).currentAlias
            (CL [gtCond "age" (.vInt 25), eqCond "active" (.vBool true)])
            (finalizePendingClause (asB "u" initialState)).paramCounter
            (finalizePendingClause (asB "u" initialState)).parameters).1 ++ ")")
        { finalizePendingClause (asB "u" initialState) with
          paramCounter :=
            (childStrings (finalizePendingClause (asB "u" initialState)).currentAlias
              (CL [gtCond "age" (.vInt 25), eqCond "active" (.vBool true)])
              (finalizePendingClause (asB "u" initialState)).paramCounter
              (finalizePendingClause (asB "u" initialState)).parameters).2.1,
          parameters :=
            (childStrings (finalizePendingClause (asB "u" initialState)).currentAlias
              (CL [gtCond "age" (.vInt 25), eqCond "active" (.vBool true)])
              (finalizePendingClause (asB "u" initialState)).paramCounter
              (finalizePendingClause (asB "u" initialState)).parameters).2.2 } :=
  C10_where_empty_and_join.2 (asB "u" initialState)
    [gtCond "age" (.vInt 25), eqCond "active" (.vBool true)] (by decide)

end Norm
